import Mathlib

/-!
# Verification of the `hlog` human-friendly slog handler (iand/pontium)

Shallow embedding of `src/hlog/handler.go` (the `go1.21` build with source
support, i.e. the copy defining `Handler{minLevel, nocolor, source, groups,
attrs, writer, prefixName, attrLevels}`), together with theorems settling
the frozen claims about it.

Modelling conventions:
* `slog.Level` is an `Int` (levels compare numerically; Debug = -4, Info = 0,
  Warn = 4, Error = 8).
* `slog.Value` is the closed variant `Value` below.  Float64 values are
  modelled by their exact rational value (`ℚ`); comparisons on doubles agree
  with comparisons on their exact rational values, and the claims about
  floats only concern comparisons (which formatting branch fires), never the
  shortest-round-trip digit strings.  `strconv.FormatFloat` is modelled over
  this rational abstraction.
* `slog.LogValuer` values are the `Value.lazy` constructor; `Value.Resolve`
  repeatedly unwraps them (the source's 100-step cap is not modelled — all
  values here are finite terms, so resolution always terminates).
* The Go `map[string][]attrValueLevel` is modelled as an association list
  with unique keys (`mapLookup` / `mapAppend` mirror indexing and
  `m[k] = append(m[k], e)`).
* The `io.Writer` sink is modelled by `Sink`: a string of accepted bytes
  plus an optional forced write error; `Sink.write` mirrors one
  `fmt.Fprintf` call.  The handler's `writer` field is an opaque sink
  reference (`Option Nat`, `none` = nil = stdout), which suffices for the
  configuration-derivation claims.
-/

namespace Hlog

/-! ## Levels (log/slog levels as integers) -/

def LevelDebug : Int := -4
def LevelInfo : Int := 0
def LevelWarn : Int := 4
def LevelError : Int := 8

/-! ## Time values

`time.Time` is modelled by its broken-down calendar fields plus an `isZero`
flag standing for `Time.IsZero()` (true exactly for Go's zero time value).
-/

structure GoTime where
  year : Nat := 1
  month : Nat := 1
  day : Nat := 1
  hour : Nat := 0
  minute : Nat := 0
  second : Nat := 0
  nanos : Nat := 0
  isZero : Bool := true
deriving DecidableEq, Repr

def zeroTime : GoTime := {}

/-! ## slog values and attributes -/

/-- The closed `slog.Value` variant set used by the handler: string, int,
float (exact rational abstraction of the double), bool, duration
(nanoseconds), time, group (ordered nested attributes), lazily-resolved
value (`slog.LogValuer`), and the zero/`nil` any-value (`slog.Value{}`). -/
inductive Value where
  | str (s : String)
  | int (i : Int)
  | float (q : ℚ)
  | bool (b : Bool)
  | duration (ns : Int)
  | time (t : GoTime)
  | group (attrs : List (String × Value))
  | lazy (v : Value)
  | nilAny

/-- `slog.Attr`: a key paired with a value. -/
abbrev Attr := String × Value

/-- `slog.Value.Resolve()`: repeatedly unwrap `LogValuer` values; all other
kinds resolve to themselves. -/
def Value.resolve : Value → Value
  | .lazy v => v.resolve
  | v => v

/-- `slog.Value.Equal`: kind must match, then compare payloads.  Group
values compare element-wise; `lazy` values compare their wrapped values
(modelling Go's interface equality of the two `LogValuer`s). -/
def valueEqual : Value → Value → Bool
  | .str a, .str b => a == b
  | .int a, .int b => a == b
  | .float a, .float b => a == b
  | .bool a, .bool b => a == b
  | .duration a, .duration b => a == b
  | .time a, .time b => a == b
  | .group a, .group b => attrsEqual a b
  | .lazy a, .lazy b => valueEqual a b
  | .nilAny, .nilAny => true
  | _, _ => false
where
  attrsEqual : List (String × Value) → List (String × Value) → Bool
  | [], [] => true
  | a :: as, b :: bs => a.1 == b.1 && valueEqual a.2 b.2 && attrsEqual as bs
  | _, _ => false

/-- `a.Equal(slog.Attr{})`: the empty/zero attribute test. -/
def attrIsEmpty (a : Attr) : Bool :=
  a.1 == "" && valueEqual a.2 .nilAny

/-! ## The handler configuration -/

/-- One `(value, level)` override entry (`attrValueLevel` in the source). -/
abbrev AttrValueLevel := Value × Int

/-- Go map indexing `m[k]` over the association-list model. -/
def mapLookup (m : List (String × List AttrValueLevel)) (k : String) :
    Option (List AttrValueLevel) :=
  match m with
  | [] => none
  | (k2, v) :: rest => if k2 == k then some v else mapLookup rest k

/-- Go `m[k] = append(m[k], e)` over the association-list model (keys stay
unique; a fresh key is appended at the end). -/
def mapAppend (m : List (String × List AttrValueLevel)) (k : String)
    (e : AttrValueLevel) : List (String × List AttrValueLevel) :=
  match m with
  | [] => [(k, [e])]
  | (k2, v) :: rest =>
    if k2 == k then (k2, v ++ [e]) :: rest else (k2, v) :: mapAppend rest k e

/-- The `Handler` struct.  Field defaults are Go's zero values, matching the
`new(Handler)` construction used by the repository.  `writer` is an opaque
sink reference (`none` = nil, i.e. standard output). -/
structure Handler where
  minLevel : Int := 0
  nocolor : Bool := false
  source : Bool := false
  groups : List String := []
  attrs : List Attr := []
  writer : Option Nat := none
  prefixName : Option String := none
  attrLevels : List (String × List AttrValueLevel) := []

/-! ## Configuration derivation (the `WithX` family)

In the source each operation first deep-`clone`s the receiver (fresh attr
slice, fresh override map with copied entry slices) and then updates one
field; in this pure embedding the clone is implicit in the record update. -/

def Handler.withLevel (h : Handler) (level : Int) : Handler :=
  { h with minLevel := level }

def Handler.withoutColor (h : Handler) : Handler :=
  { h with nocolor := true }

/-- `WithPrefix` in the source (renamed here). -/
def Handler.withPrefixName (h : Handler) (name : String) : Handler :=
  { h with prefixName := some name }

def Handler.withWriter (h : Handler) (w : Nat) : Handler :=
  { h with writer := some w }

def Handler.withSource (h : Handler) : Handler :=
  { h with source := true }

def Handler.withAttrLevel (h : Handler) (a : Attr) (level : Int) : Handler :=
  { h with attrLevels := mapAppend h.attrLevels a.1 (a.2, level) }

/-- `groupPrefix` in the source: dot-joined group names plus a trailing dot
when the stack is non-empty. -/
def Handler.groupPre (h : Handler) : String :=
  if h.groups = [] then "" else String.intercalate "." h.groups ++ "."

/-- `flattenAttr` in the source.  The source first fully resolves the value
(`a.Value = a.Value.Resolve()`) and then branches on its kind; here the
resolution loop is fused into the `lazy` equation (resolution is idempotent,
so the two phrasings agree — certified by theorem `C5_withAttrs_flattening`). -/
def flattenVal (pre : String) (k : String) : Value → List Attr
  | .lazy v => flattenVal pre k v
  | .group subs => flattenVals (if k = "" then pre else pre ++ k ++ ".") subs
  | v => if attrIsEmpty (k, v) then [] else [(pre ++ k, v)]
where
  flattenVals (pre : String) : List Attr → List Attr
  | [] => []
  | (k, v) :: rest => flattenVal pre k v ++ flattenVals pre rest

def flattenAttr (pre : String) (a : Attr) : List Attr :=
  flattenVal pre a.1 a.2

def Handler.withAttrs (h : Handler) (attrs : List Attr) : Handler :=
  { h with attrs := h.attrs ++ attrs.flatMap (flattenAttr h.groupPre) }

def Handler.withGroup (h : Handler) (name : String) : Handler :=
  if name = "" then h else { h with groups := h.groups ++ [name] }

/-! ## Enablement -/

/-- `Enabled`: the cheap pre-check without access to the record's attributes. -/
def Handler.enabled (h : Handler) (level : Int) : Bool :=
  if h.attrLevels.length == 0 then decide (h.minLevel ≤ level) else true

/-- `attrHasMinLevel`: does some registered override entry under this
attribute's key have an equal value and a level ≤ the record's level? -/
def Handler.attrHasMinLevel (h : Handler) (a : Attr) (level : Int) : Bool :=
  match mapLookup h.attrLevels a.1 with
  | some vs => vs.any (fun v => valueEqual v.1 a.2 && decide (v.2 ≤ level))
  | none => false

/-! ## Records -/

/-- `slog.Record`: timestamp, level, message, program counter (0 = no
source information), the file/line the runtime would report for that pc,
and the ordered attribute list. -/
structure Record where
  time : GoTime := zeroTime
  level : Int := 0
  message : String := ""
  pc : Nat := 0
  file : String := ""
  line : Nat := 0
  attrs : List Attr := []

/-- One invocation of the `r.Attrs` callback in `enabledForRecord`,
threading the captured `enabled` flag:
`if enabled { return false }; enabled = h.attrHasMinLevel(a, r.Level);
return enabled`.  Returns the new flag value and the callback's boolean
result (whether iteration continues). -/
def Handler.enabledStep (h : Handler) (lvl : Int) (enabled : Bool) (a : Attr) :
    Bool × Bool :=
  if enabled then (enabled, false)
  else
    let e := h.attrHasMinLevel a lvl
    (e, e)

/-- `r.Attrs(f)` over the callback above: `slog.Record.Attrs` calls `f` on
each attribute in order and **stops as soon as `f` returns `false`**.
Returns the final value of the captured `enabled` flag. -/
def Handler.recordScan (h : Handler) (lvl : Int) (enabled : Bool) :
    List Attr → Bool
  | [] => enabled
  | a :: rest =>
    let s := h.enabledStep lvl enabled a
    if s.2 then h.recordScan lvl s.1 rest else s.1

/-- `enabledForRecord`: level gate, then the carried-attribute loop (early
`return true` on a match, i.e. a short-circuiting `any`), then the
`r.Attrs` scan.  Because the callback returns `enabled` and `Record.Attrs`
stops once the callback returns `false`, the record-side scan aborts at the
first **non-matching** attribute: only the first record attribute is ever
tested (theorem `enabledForRecord_eq`). -/
def Handler.enabledForRecord (h : Handler) (r : Record) : Bool :=
  if h.minLevel ≤ r.level then true
  else if h.attrs.any (fun a => h.attrHasMinLevel a r.level) then true
  else h.recordScan r.level false r.attrs

/-! ## String formatting helpers (fmt verbs and strconv over the model) -/

/-- `fmt` width padding on the right (`%-Ns`); never truncates. -/
def padRight (w : Nat) (s : String) : String :=
  s ++ String.mk (List.replicate (w - s.length) ' ')

/-- `fmt` width padding on the left (`%Ns`); never truncates. -/
def padLeft (w : Nat) (s : String) : String :=
  String.mk (List.replicate (w - s.length) ' ') ++ s

/-- Zero-pad the decimal rendering of `n` on the left to width `w`. -/
def zeroPad (w : Nat) (n : Nat) : String :=
  let s := toString n
  String.mk (List.replicate (w - s.length) '0') ++ s

/-- `fmt.Sprintf("%02d", n)`: zero-pad to total width 2 (the sign counts
towards the width, exactly as in Go). -/
def go02d (n : Int) : String :=
  if 0 ≤ n ∧ n < 10 then "0" ++ toString n else toString n

/-! ### ANSI color constants -/

def colorReset : String := "\x1b[0m"
def colorRed : String := "\x1b[1;31m"
def colorGreen : String := "\x1b[1;32m"
def colorYellow : String := "\x1b[1;33m"
def colorBlue : String := "\x1b[1;34m"

/-! ### The level label (`kind` in `Handle`) -/

/-- The `switch r.Level` mapping the level to its base label. -/
def levelKindBase (level : Int) : String :=
  if level = LevelError then "error"
  else if level = LevelWarn then "warn"
  else if level = LevelInfo then "info"
  else if level = LevelDebug then "debug"
  else go02d level

/-- The colorizing/padding step applied to the base label in `Handle`. -/
def levelKind (nocolor : Bool) (level : Int) : String :=
  let kind := levelKindBase level
  if !nocolor then
    if LevelError ≤ level then colorRed ++ padRight 5 kind ++ colorReset
    else if LevelWarn ≤ level then colorYellow ++ padRight 5 kind ++ colorReset
    else if LevelInfo ≤ level then colorGreen ++ padRight 5 kind ++ colorReset
    else kind
  else padRight 5 kind

/-! ### Float formatting

`strconv.FormatFloat(v, fmt, -1, 64)` prints the shortest decimal digits
that round-trip through the double `v`.  Over the rational abstraction the
value itself plays the role of that shortest decimal; these renderers are
models of the strconv output for values whose shortest form is exact. -/

/-- Smallest `k < 64` with `den ∣ 10^k` (every double's denominator is a
power of two dividing some such power of ten in the ranges the handler can
receive). -/
def pow10Exp (den : Nat) : Option Nat :=
  (List.range 64).find? (fun k => 10 ^ k % den == 0)

/-- Decimal rendering of the (not necessarily reduced) fraction `a / b`
with an explicit sign. -/
def fixedFromParts (neg : Bool) (a b : Nat) : String :=
  let sign := if neg then "-" else ""
  match pow10Exp b with
  | some k =>
    let scaled := a * (10 ^ k / b)
    let ip := scaled / 10 ^ k
    let fp := scaled % 10 ^ k
    sign ++ toString ip ++
      (if fp = 0 then ""
       else "." ++ String.mk ((zeroPad k fp).toList.reverse.dropWhile (· = '0')).reverse)
  | none => sign ++ toString a ++ "/" ++ toString b

/-- Fixed-point decimal rendering of a rational (models
`strconv.FormatFloat(v, 'f', -1, 64)`). -/
def ratFixedString (q : ℚ) : String :=
  fixedFromParts (decide (q.num < 0)) q.num.natAbs q.den

/-- Decimal exponent of a non-zero rational `q = ±a/b`: the `e` with
`10^e ≤ |q| < 10^(e+1)` (searched within the double range; stated on the
numerator/denominator so it evaluates by kernel arithmetic). -/
def decExponent (q : ℚ) : Int :=
  let a := q.num.natAbs
  let b := q.den
  if b ≤ a then Int.ofNat ((toString (a / b)).length - 1)
  else
    match (List.range 400).find? (fun k => b ≤ a * 10 ^ (k + 1)) with
    | some k => -(Int.ofNat (k + 1))
    | none => 0

/-- Scientific-notation rendering (models the `%e` side of
`strconv.FormatFloat(v, 'g', -1, 64)`, e.g. `1e+25`, `-1e-05`): the
mantissa is `q` shifted by `10^(-e)`, rendered fixed-point. -/
def ratSciString (q : ℚ) : String :=
  let e := decExponent q
  let mparts : Nat × Nat :=
    if 0 ≤ e then (q.num.natAbs, q.den * 10 ^ e.toNat)
    else (q.num.natAbs * 10 ^ (-e).toNat, q.den)
  fixedFromParts (decide (q.num < 0)) mparts.1 mparts.2 ++ "e" ++
    (if e < 0 then "-" else "+") ++ zeroPad 2 e.natAbs

/-- Models `strconv.FormatFloat(v, 'g', -1, 64)`: shortest digits, using
scientific notation when the decimal exponent is `< -4` or `≥ 21`. -/
def formatFloatG (q : ℚ) : String :=
  if q = 0 then "0"
  else if decExponent q < -4 ∨ 21 ≤ decExponent q then ratSciString q
  else ratFixedString q

/-- Models `strconv.FormatFloat(v, 'f', -1, 64)`. -/
def formatFloatF (q : ℚ) : String := ratFixedString q

/-- Models `math.Abs`. -/
def ratAbs (q : ℚ) : ℚ := if q < 0 then -q else q

/-- The float-branch condition in `writeAttr`, verbatim from the source:
`abs := math.Abs(v); abs == 0 || 1e-6 <= v && v < 1e21` — note that the
range comparison uses `v`, not `abs` (the constants `1e-6` and `1e21` are
the exact rationals `mkRat 1 1000000` and `10^21`). -/
def floatFixedPoint (q : ℚ) : Bool :=
  let abs := ratAbs q
  abs == 0 || (decide ((mkRat 1 1000000 : ℚ) ≤ q) && decide (q < (10 : ℚ) ^ 21))

/-! ### Duration formatting (models `time.Duration.String()`) -/

/-- Fractional part `v / 10^digits` rendered as `"." ++ digits` with
trailing zeros trimmed; empty when `v = 0`. -/
def fracPart (digits v : Nat) : String :=
  if v = 0 then ""
  else "." ++ String.mk ((zeroPad digits v).toList.reverse.dropWhile (· = '0')).reverse

/-- Models Go's `time.Duration.String()` (ns/µs/ms below one second, then
`h`/`m`/`s` components with a trimmed fractional second). -/
def durationString (ns : Int) : String :=
  if ns = 0 then "0s"
  else
    let sign := if ns < 0 then "-" else ""
    let u := ns.natAbs
    if u < 1000 then sign ++ toString u ++ "ns"
    else if u < 1000000 then sign ++ toString (u / 1000) ++ fracPart 3 (u % 1000) ++ "µs"
    else if u < 1000000000 then
      sign ++ toString (u / 1000000) ++ fracPart 6 (u % 1000000) ++ "ms"
    else
      let secs := u / 1000000000
      let secStr := toString (secs % 60) ++ fracPart 9 (u % 1000000000) ++ "s"
      let mins := secs / 60
      if mins = 0 then sign ++ secStr
      else
        let minStr := toString (mins % 60) ++ "m" ++ secStr
        let hours := mins / 60
        if hours = 0 then sign ++ minStr
        else sign ++ toString hours ++ "h" ++ minStr

/-- The suffix-stripping applied to durations in `writeAttr`: drop a
trailing `0s` after minutes, then a trailing `0m` after hours. -/
def stripDurZero (s : String) : String :=
  let s1 := if s.endsWith "m0s" then s.dropRight 2 else s
  if s1.endsWith "h0m" then s1.dropRight 2 else s1

/-! ### Time formatting -/

/-- `r.Time.Format("15:04:05.000000")`: clock time with microseconds. -/
def formatClock (t : GoTime) : String :=
  zeroPad 2 t.hour ++ ":" ++ zeroPad 2 t.minute ++ ":" ++ zeroPad 2 t.second ++
    "." ++ zeroPad 6 (t.nanos / 1000)

/-- Models `Format(time.RFC3339Nano)` for a UTC time (zone offsets are not
modelled; the handler's claims never render time-valued attributes). -/
def rfc3339Nano (t : GoTime) : String :=
  zeroPad 4 t.year ++ "-" ++ zeroPad 2 t.month ++ "-" ++ zeroPad 2 t.day ++ "T" ++
    zeroPad 2 t.hour ++ ":" ++ zeroPad 2 t.minute ++ ":" ++ zeroPad 2 t.second ++
    (if t.nanos = 0 then ""
     else "." ++ String.mk ((zeroPad 9 t.nanos).toList.reverse.dropWhile (· = '0')).reverse) ++
    "Z"

/-- Models `time.Time.String()` (`"2006-01-02 15:04:05.999999999 -0700 MST"`
layout, fixed UTC zone). -/
def goTimeString (t : GoTime) : String :=
  zeroPad 4 t.year ++ "-" ++ zeroPad 2 t.month ++ "-" ++ zeroPad 2 t.day ++ " " ++
    zeroPad 2 t.hour ++ ":" ++ zeroPad 2 t.minute ++ ":" ++ zeroPad 2 t.second ++
    (if t.nanos = 0 then ""
     else "." ++ String.mk ((zeroPad 9 t.nanos).toList.reverse.dropWhile (· = '0')).reverse) ++
    " +0000 UTC"

/-! ### `quote` and `slog.Value.String()` -/

/-- Models `strconv`'s `%q` escaping for the characters that can occur in
the claims' inputs (quote, backslash, common control characters). -/
def escapeChar (c : Char) : String :=
  if c = '"' then "\\\""
  else if c = '\\' then "\\\\"
  else if c = '\n' then "\\n"
  else if c = '\t' then "\\t"
  else if c = '\r' then "\\r"
  else String.singleton c

/-- `quote` in the source: wrap in double quotes (with `%q` escaping) iff
the string contains a space (`strings.ContainsAny(s, " ")`). -/
def goQuote (s : String) : String :=
  if s.toList.any (fun c => c = ' ') then
    "\"" ++ String.join (s.toList.map escapeChar) ++ "\""
  else s

/-- `slog.Value.String()`.  A `lazy` value prints its `fmt.Sprint` form,
which depends on the dynamic `LogValuer`; it is modelled by a fixed tag
(`Value.String` is never reached on unresolved values in the handler —
both carried and flattened record attributes are stored resolved). -/
def valueString : Value → String
  | .str s => s
  | .int i => toString i
  | .float q => formatFloatG q
  | .bool b => if b then "true" else "false"
  | .duration ns => durationString ns
  | .time t => goTimeString t
  | .group attrs => "[" ++ String.intercalate " " (groupParts attrs) ++ "]"
  | .lazy _ => "LogValuer"
  | .nilAny => "<nil>"
where
  groupParts : List (String × Value) → List String
  | [] => []
  | (k, v) :: rest => (k ++ "=" ++ valueString v) :: groupParts rest

/-! ## Attribute rendering (`writeAttr`) -/

/-- The value-formatting dispatch in `writeAttr` (after `Resolve`). -/
def formatValue : Value → String
  | .float q => if floatFixedPoint q then formatFloatF q else formatFloatG q
  | .duration ns => stripDurZero (durationString ns)
  | .time t => rfc3339Nano t
  | v => goQuote (valueString v)

/-- `writeAttr`: the fragment appended to the attribute text for one
attribute — a space, the (optionally colorized) key, `=`, the formatted
resolved value. -/
def Handler.writeAttr (h : Handler) (a : Attr) : String :=
  " " ++ (if !h.nocolor then colorBlue else "") ++ a.1 ++
    (if !h.nocolor then colorReset else "") ++ "=" ++ formatValue a.2.resolve

/-! ## Render and emit (`Handle`) -/

/-- One step of the carried-attribute loop in `Handle`, threading the
`(attribute text, prefix)` accumulator.  An attribute whose key equals the
prefix key sets the prefix but — unlike in the record loop — is **still**
rendered inline (the source has no `continue` here). -/
def Handler.carriedStep (h : Handler) (acc : String × String) (a : Attr) :
    String × String :=
  if attrIsEmpty a then acc
  else
    let pfx := match h.prefixName with
      | some p => if a.1 == p then valueString a.2 else acc.2
      | none => acc.2
    (acc.1 ++ h.writeAttr a, pfx)

/-- One step of the record-attribute loop in `Handle` (over the flattened
attributes): a prefix-key attribute sets the prefix and is skipped. -/
def Handler.recordStep (h : Handler) (acc : String × String) (fa : Attr) :
    String × String :=
  if attrIsEmpty fa then acc
  else
    match h.prefixName with
    | some p =>
      if fa.1 == p then (acc.1, valueString fa.2)
      else (acc.1 ++ h.writeAttr fa, acc.2)
    | none => (acc.1 ++ h.writeAttr fa, acc.2)

/-- The attribute-text/prefix construction in `Handle`: fold the carried
attributes, then the record's attributes flattened through the active group
prefix. -/
def Handler.buildAttrText (h : Handler) (r : Record) : String × String :=
  let acc1 := h.attrs.foldl h.carriedStep ("", "")
  (r.attrs.flatMap (flattenAttr h.groupPre)).foldl h.recordStep acc1

/-- Models `path.Base`: last element of the slash-separated path. -/
def pathBase (p : String) : String :=
  if p = "" then "."
  else
    let trimmed := (p.toList.reverse.dropWhile (· = '/')).reverse
    if trimmed = [] then "/"
    else String.mk (trimmed.reverse.takeWhile (· ≠ '/')).reverse

/-- The line `Handle` passes to `fmt.Fprintf` (after the suppression check
succeeded). -/
def Handler.renderLine (h : Handler) (r : Record) : String :=
  let kind := levelKind h.nocolor r.level
  let built := h.buildAttrText r
  let msg := if built.2 ≠ "" then built.2 ++ ": " ++ r.message else r.message
  let timeStr := if r.time.isZero then "" else formatClock r.time
  if h.source && r.pc != 0 then
    let sourceStr := pathBase r.file ++ ":" ++ toString r.line
    kind ++ " | " ++ padLeft 15 timeStr ++ " | " ++ padRight 20 sourceStr ++
      " | " ++ padRight 40 msg ++ " " ++ built.1 ++ "\n"
  else
    kind ++ " | " ++ padLeft 15 timeStr ++ " | " ++ padRight 40 msg ++ " " ++
      built.1 ++ "\n"

/-- The emission decision plus rendering of `Handle`: `none` when the
record is suppressed (the suppression check only runs when the override
table is non-empty), otherwise the formatted line. -/
def Handler.handleLine (h : Handler) (r : Record) : Option String :=
  if h.attrLevels.length > 0 && !h.enabledForRecord r then none
  else some (h.renderLine r)

/-! ## The sink -/

/-- An `io.Writer` state: accepted bytes plus an optional forced write
error (a sink with `failWith = some e` rejects every write with `e`). -/
structure Sink where
  written : String := ""
  failWith : Option String := none

/-- One `fmt.Fprintf` call against the sink. -/
def Sink.write (s : Sink) (out : String) : Sink × Option String :=
  match s.failWith with
  | some e => (s, some e)
  | none => ({ s with written := s.written ++ out }, none)

/-- `Handle` against the sink the handler writes to (its configured writer,
or standard output when none is configured): the suppression check, one
`fmt.Fprintf` whose result is **discarded**, and an unconditional
`return nil`. -/
def Handler.handle (h : Handler) (r : Record) (s : Sink) : Sink × Option String :=
  match h.handleLine r with
  | none => (s, none)
  | some line => ((s.write line).1, none)

/-! ## Definitions written from the claims' wording

These follow the spec's sentences (not the source) and are compared with
the source-derived definitions in the refinement theorems below. -/

/-- Claim wording: the attribute "has a registered override entry whose
value equals the attribute's value and whose level is ≤ the record's
level". -/
def overrideMatches (h : Handler) (lvl : Int) (a : Attr) : Bool :=
  ((mapLookup h.attrLevels a.1).getD []).any
    (fun e => valueEqual e.1 a.2 && decide (e.2 ≤ lvl))

/-- The record-side contribution the code actually computes: the override
match of the **first** record attribute only (the `r.Attrs` iteration
aborts at the first non-matching attribute). -/
def firstAttrMatches (h : Handler) (lvl : Int) : List Attr → Bool
  | [] => false
  | a :: _ => overrideMatches h lvl a

/-- Wording of the amended per-record emission condition (C1): level at or
above the minimum, or a carried attribute matching an override, or the
first of the record's own attributes matching one. -/
def specRecordEnabled (h : Handler) (r : Record) : Bool :=
  decide (h.minLevel ≤ r.level) || h.attrs.any (overrideMatches h r.level) ||
    firstAttrMatches h r.level r.attrs

/-- Wording of the ORIGINAL claims C1/C10: every attribute — carried first,
then all of the record's own — is scanned against the override table. -/
def claimRecordEnabled (h : Handler) (r : Record) : Bool :=
  decide (h.minLevel ≤ r.level) || (h.attrs ++ r.attrs).any (overrideMatches h r.level)

/-- Claim wording (C7): the timestamp field — `HH:MM:SS.microseconds`, or
empty when the record's timestamp is the zero value. -/
def timeField (r : Record) : String :=
  if r.time.isZero then "" else formatClock r.time

/-- Claim wording (C7): the optional source segment — `' | '` and
`file:line` left-aligned to 20 characters, present only when source
tracking is enabled and a source location is available. -/
def Handler.sourceField (h : Handler) (r : Record) : String :=
  if h.source && r.pc != 0 then
    " | " ++ padRight 20 (pathBase r.file ++ ":" ++ toString r.line)
  else ""

/-- Claim wording (C3/C7): the emitted message — `"<prefix>: <message>"`
when a non-empty prefix value was captured. -/
def Handler.msgField (h : Handler) (r : Record) : String :=
  if (h.buildAttrText r).2 ≠ "" then (h.buildAttrText r).2 ++ ": " ++ r.message
  else r.message

/-- Claim wording (C7, amended): the full line — level label, `' | '`,
timestamp right-aligned to 15, the optional source segment, `' | '`, the
message padded to 40, a space, the attribute text, a newline. -/
def Handler.lineSpec (h : Handler) (r : Record) : String :=
  levelKind h.nocolor r.level ++ " | " ++ padLeft 15 (timeField r) ++
    h.sourceField r ++ " | " ++ padRight 40 (h.msgField r) ++ " " ++
    (h.buildAttrText r).1 ++ "\n"

/-- Is this value (already resolved) a group? -/
def Value.isGroup : Value → Bool
  | .group _ => true
  | _ => false

/-! ## Concrete configurations and records used by witnesses and
counterexamples -/

/-- `new(Handler)`: zero configuration (minimum level Info, color on,
empty override table). -/
def exHandlerDefault : Handler := {}

/-- A handler with one override entry: key `"dbg"`, value `"t1"`, level
Debug. -/
def exHandlerOv : Handler :=
  Handler.withAttrLevel {} ("dbg", Value.str "t1") LevelDebug

/-- A Debug-level record with no attributes and a zero timestamp. -/
def exRecDebug : Record := { level := LevelDebug, message := "m" }

/-- An Info-level record with no attributes. -/
def exRecInfo : Record := { level := LevelInfo, message := "x" }

/-- A sink that accepts writes. -/
def exSinkOk : Sink := {}

/-- A sink whose writes fail with `"disk full"`. -/
def exSinkFail : Sink := { failWith := some "disk full" }

/-- C3: color off, prefix key `"svc"`, carried attribute `svc="api"`. -/
def exC3Carried : Handler :=
  Handler.withAttrs (Handler.withPrefixName (Handler.withoutColor {}) "svc")
    [("svc", Value.str "api")]

/-- C3: color off, prefix key `"svc"`, no carried attributes. -/
def exC3Plain : Handler :=
  Handler.withPrefixName (Handler.withoutColor {}) "svc"

/-- C3: the record of the spec's prefix scenario. -/
def exC3Rec : Record :=
  { level := LevelInfo, message := "started",
    attrs := [("svc", Value.str "api"), ("port", Value.int 8080)] }

/-- C3: an Info record with no attributes of its own. -/
def exC3RecNoAttrs : Record := { level := LevelInfo, message := "started" }

/-- C7: color off, defaults otherwise. -/
def exC7Handler : Handler := Handler.withoutColor {}

/-- C7: Info record with one integer attribute. -/
def exC7Rec : Record :=
  { level := LevelInfo, message := "m", attrs := [("a", Value.int 1)] }

/-- C10: override registered under the flattened key `"req.id"`. -/
def exOvReqId : Handler :=
  Handler.withAttrLevel {} ("req.id", Value.int 42) LevelDebug

/-- C10: same override, then group `"req"` and a carried attribute `id=42`
(stored flattened as `req.id=42`). -/
def exOvCarried : Handler :=
  Handler.withAttrs (Handler.withGroup exOvReqId "req") [("id", Value.int 42)]

/-- C10: override on the bare key `"id"`, with group `"req"` active. -/
def exOvBare : Handler :=
  Handler.withGroup (Handler.withAttrLevel {} ("id", Value.int 42) LevelDebug) "req"

/-- C10: Debug record whose `id=42` is nested inside a group-valued
attribute `req`. -/
def exRecNested : Record :=
  { level := LevelDebug, message := "m",
    attrs := [("req", Value.group [("id", Value.int 42)])] }

/-- C10: Debug record with the bare attribute `id=42`. -/
def exRecBare : Record :=
  { level := LevelDebug, message := "m", attrs := [("id", Value.int 42)] }

/-- C1/C10: override on `k="v"` at Debug level (minimum level Info). -/
def exOvK : Handler :=
  Handler.withAttrLevel {} ("k", Value.str "v") LevelDebug

/-- C1/C10: a Debug record whose matching attribute `k="v"` is the
**second** record attribute; the first, `x="y"`, matches no override. -/
def exRecTwoAttrs : Record :=
  { level := LevelDebug, message := "m",
    attrs := [("x", Value.str "y"), ("k", Value.str "v")] }

/-! # Theorems -/

/-! ## Shared lemmas -/

/-- `attrHasMinLevel` computes exactly the claims' override-match
condition. -/
theorem attrHasMinLevel_eq (h : Handler) (a : Attr) (lvl : Int) :
    h.attrHasMinLevel a lvl = overrideMatches h lvl a := by
  unfold Handler.attrHasMinLevel overrideMatches
  cases mapLookup h.attrLevels a.1 <;> simp

/-- Once the `enabled` flag is set, the next callback returns `false` and
the scan stops, reporting `true`. -/
theorem recordScan_of_true (h : Handler) (lvl : Int) (l : List Attr) :
    h.recordScan lvl true l = true := by
  cases l <;> simp [Handler.recordScan, Handler.enabledStep]

/-- From a clear flag the scan computes exactly the first attribute's
override match: a match sets the flag (and the next call stops with
`true`), while a non-match makes the callback return `false` and stops the
iteration at once — later attributes are never consulted. -/
theorem recordScan_of_false (h : Handler) (lvl : Int) (l : List Attr) :
    h.recordScan lvl false l = firstAttrMatches h lvl l := by
  cases l with
  | nil => rfl
  | cons a rest =>
    simp only [Handler.recordScan, Handler.enabledStep, firstAttrMatches]
    cases he : h.attrHasMinLevel a lvl <;>
      simp [he, recordScan_of_true, ← attrHasMinLevel_eq]

/-- `enabledForRecord` is the level gate orred with the carried-attribute
override scan, orred with the override match of the FIRST record
attribute. -/
theorem enabledForRecord_eq (h : Handler) (r : Record) :
    h.enabledForRecord r =
      (decide (h.minLevel ≤ r.level) || h.attrs.any (overrideMatches h r.level) ||
        firstAttrMatches h r.level r.attrs) := by
  unfold Handler.enabledForRecord
  by_cases hml : h.minLevel ≤ r.level
  · simp [hml]
  · rw [if_neg hml]
    by_cases hca : (h.attrs.any fun a => h.attrHasMinLevel a r.level) = true
    · rw [if_pos hca]
      simp only [attrHasMinLevel_eq] at hca
      simp [hml, hca]
    · rw [if_neg hca]
      simp only [attrHasMinLevel_eq] at hca
      simp [hml, hca, recordScan_of_false]

/-! ## C1 — emission condition of `Handle` -/

/-- C1 (amended): when the override table is non-empty, `Handle` emits the
rendered line exactly when the record's level reaches the minimum, or a
carried attribute matches a registered override (scanned in order,
short-circuiting on the first match), or the **first** of the record's own
attributes matches one — the `r.Attrs` callback aborts the iteration at
the first non-matching attribute, so later record attributes are never
consulted.  When the override table is empty, `Handle` emits
unconditionally (the minimum-level gate lives in the separate `Enabled`
pre-check).  Against a functioning sink, emission appends exactly the
rendered line and suppression appends nothing. -/
theorem C1_emission_condition (h : Handler) (r : Record) (s : Sink) :
    ((h.handleLine r).isSome = (h.attrLevels.isEmpty || specRecordEnabled h r)) ∧
    (s.failWith = none →
      (h.handle r s).1.written = s.written ++ ((h.handleLine r).getD "")) := by
  constructor
  · unfold Handler.handleLine specRecordEnabled
    rw [← enabledForRecord_eq]
    cases hA : h.attrLevels with
    | nil => simp
    | cons x xs => cases hE : h.enabledForRecord r <;> simp [hE]
  · intro hs
    unfold Handler.handle
    cases hL : h.handleLine r with
    | none => simp [String.append_empty]
    | some line => simp [Sink.write, hs]

/-- Witness for C1 at a concrete suppressed input: one override entry is
registered, the Debug record matches nothing, and zero bytes reach the
sink. -/
theorem C1_emission_condition_witness :
    ((exHandlerOv.handleLine exRecDebug).isSome =
      (exHandlerOv.attrLevels.isEmpty || specRecordEnabled exHandlerOv exRecDebug)) ∧
    ((exHandlerOv.handle exRecDebug exSinkOk).1.written =
      exSinkOk.written ++ ((exHandlerOv.handleLine exRecDebug).getD "")) :=
  ⟨(C1_emission_condition exHandlerOv exRecDebug exSinkOk).1,
    (C1_emission_condition exHandlerOv exRecDebug exSinkOk).2 rfl⟩

/-- C1 counterexample to the claim as stated, in both directions.  With an
**empty** override table, a record strictly below the minimum level still
produces output — `Handle` skips the per-record check entirely in that
case.  And with an override registered on `k="v"`, a below-minimum record
carrying `[x="y", k="v"]` satisfies the claim's scan condition (some
attribute matches an override), yet the code suppresses it: the record
scan aborts at the non-matching first attribute. -/
theorem C1_counterexample :
    (exHandlerDefault.attrLevels = [] ∧
      exRecDebug.level < exHandlerDefault.minLevel ∧
      (exHandlerDefault.handleLine exRecDebug).isSome = true ∧
      (exHandlerDefault.handle exRecDebug exSinkOk).1.written ≠ "") ∧
    (exRecTwoAttrs.level < exOvK.minLevel ∧
      claimRecordEnabled exOvK exRecTwoAttrs = true ∧
      exOvK.handleLine exRecTwoAttrs = none ∧
      (exOvK.handle exRecTwoAttrs exSinkOk).1.written = "") :=
  ⟨⟨rfl, by decide, rfl, by decide⟩, ⟨by decide, rfl, rfl, rfl⟩⟩

/-! ## C2 — `Handle` and errors -/

/-- C2 (amended): `Handle` always returns nil — formatting is total and
even a failing sink write is discarded (`fmt.Fprintf`'s result is ignored);
a suppressed record writes nothing and returns nil. -/
theorem C2_handle_returns_nil (h : Handler) (r : Record) (s : Sink) :
    (h.handle r s).2 = none ∧
    (h.handleLine r = none → h.handle r s = (s, none)) := by
  unfold Handler.handle
  cases hL : h.handleLine r <;> simp

/-- Witness for C2 at a concrete suppressed input. -/
theorem C2_handle_returns_nil_witness :
    (exHandlerOv.handle exRecDebug exSinkFail).2 = none ∧
    exHandlerOv.handle exRecDebug exSinkFail = (exSinkFail, none) :=
  ⟨(C2_handle_returns_nil exHandlerOv exRecDebug exSinkFail).1,
    (C2_handle_returns_nil exHandlerOv exRecDebug exSinkFail).2 rfl⟩

/-- C2 counterexample to the claim as stated: an emitted record whose sink
write fails with `"disk full"` — the write call reports the error, but
`Handle` still returns nil instead of surfacing it. -/
theorem C2_counterexample :
    (exHandlerDefault.handleLine exRecInfo).isSome = true ∧
    (exSinkFail.write (exHandlerDefault.renderLine exRecInfo)).2 = some "disk full" ∧
    (exHandlerDefault.handle exRecInfo exSinkFail).2 = none :=
  ⟨rfl, rfl, rfl⟩

/-! ## C4 — the cheap `Enabled` pre-check -/

/-- C4: with an empty override table `Enabled` is exactly the minimum-level
comparison; with any override registered it reports enabled for every
level. -/
theorem C4_enabled_precheck (h : Handler) (lvl : Int) :
    (h.attrLevels = [] → h.enabled lvl = decide (h.minLevel ≤ lvl)) ∧
    (h.attrLevels ≠ [] → h.enabled lvl = true) := by
  unfold Handler.enabled
  cases h.attrLevels <;> simp

/-- Witness for C4 at concrete inputs: the zero handler (empty table) and a
handler with one registered override, both probed below the minimum level. -/
theorem C4_enabled_precheck_witness :
    exHandlerDefault.enabled (-4) = decide (exHandlerDefault.minLevel ≤ -4) ∧
    exHandlerOv.enabled (-4) = true :=
  ⟨(C4_enabled_precheck exHandlerDefault (-4)).1 rfl,
    (C4_enabled_precheck exHandlerOv (-4)).2 (fun hh => List.noConfusion hh)⟩

/-! ## C3 — the prefix attribute -/

/-- C3 (code bug): a **carried** attribute whose key equals the prefix key
is captured as the message prefix but is *also* rendered inline — the
carried-attribute loop in `Handle` sets the prefix without skipping the
`writeAttr` call, contradicting `WithPrefix`'s own documentation ("instead
of being shown alongside other attributes").  The record-attribute side
behaves as claimed: in the spec's scenario the `svc` attribute is consumed
as the prefix, the message renders as `api: started`, and only
` port=8080` is rendered. -/
theorem C3_carried_prefix_rendered_inline :
    exC3Carried.buildAttrText exC3RecNoAttrs = (" svc=api", "api") ∧
    exC3Plain.buildAttrText exC3Rec = (" port=8080", "api") ∧
    exC3Plain.renderLine exC3Rec =
      levelKind true LevelInfo ++ " | " ++ padLeft 15 "" ++ " | " ++
        padRight 40 "api: started" ++ " " ++ " port=8080" ++ "\n" :=
  ⟨rfl, rfl, by decide⟩

/-! ## C5 — `WithAttrs` flattening -/

/-- `flattenVals` is the concatenation of the flattening of each element. -/
theorem flattenVals_eq (pre : String) (l : List Attr) :
    flattenVal.flattenVals pre l = l.flatMap (flattenAttr pre) := by
  induction l with
  | nil => rfl
  | cons a rest ih =>
    cases a
    simp [flattenVal.flattenVals, flattenAttr, ih]

/-- A value whose resolved form is not a group flattens to the single
attribute `(prefix ++ key, resolved value)` — or to nothing when the
resolved attribute is the empty attribute. -/
theorem flattenVal_of_not_group (pre k : String) :
    ∀ v : Value, v.resolve.isGroup = false →
      flattenVal pre k v =
        (if attrIsEmpty (k, v.resolve) then [] else [(pre ++ k, v.resolve)])
  | .lazy w, hg => by
    have hw : w.resolve.isGroup = false := by
      simpa [Value.resolve] using hg
    simpa [flattenVal, Value.resolve] using flattenVal_of_not_group pre k w hw
  | .str s, _ => by simp [flattenVal, Value.resolve]
  | .int i, _ => by simp [flattenVal, Value.resolve]
  | .float q, _ => by simp [flattenVal, Value.resolve]
  | .bool b, _ => by simp [flattenVal, Value.resolve]
  | .duration ns, _ => by simp [flattenVal, Value.resolve]
  | .time t, _ => by simp [flattenVal, Value.resolve]
  | .group subs, hg => by simp [Value.resolve, Value.isGroup] at hg
  | .nilAny, _ => by simp [flattenVal, Value.resolve]

/-- C5 (amended): `WithAttrs` stores the flattening of each attribute under
the active group prefix, appended to the carried attributes; flattening
first **resolves** the value, expands a (resolved) group-valued attribute
recursively under the prefix extended by its own key (contributing no
attribute itself), drops a resolved-empty attribute, and otherwise stores
`(prefix ++ key, resolved value)`. -/
theorem C5_withAttrs_flattening :
    (∀ (h : Handler) (attrs : List Attr),
      (h.withAttrs attrs).attrs = h.attrs ++ attrs.flatMap (flattenAttr h.groupPre)) ∧
    (∀ (pre k : String) (subs : List (String × Value)),
      flattenAttr pre (k, Value.group subs) =
        subs.flatMap (flattenAttr (if k = "" then pre else pre ++ k ++ "."))) ∧
    (∀ (pre k : String) (v : Value),
      flattenAttr pre (k, Value.lazy v) = flattenAttr pre (k, v)) ∧
    (∀ (pre k : String) (v : Value), v.resolve.isGroup = false →
      flattenAttr pre (k, v) =
        (if attrIsEmpty (k, v.resolve) then [] else [(pre ++ k, v.resolve)])) := by
  refine ⟨fun h attrs => rfl, fun pre k subs => ?_, fun pre k v => rfl,
    fun pre k v hg => flattenVal_of_not_group pre k v hg⟩
  simp [flattenAttr, flattenVal, flattenVals_eq]

/-- Witness for C5 at a concrete input: a lazily-resolved string flattens
to its resolved value. -/
theorem C5_withAttrs_flattening_witness :
    (Value.lazy (Value.str "x")).resolve.isGroup = false ∧
    flattenAttr "" ("k", Value.lazy (Value.str "x")) =
      (if attrIsEmpty ("k", (Value.lazy (Value.str "x")).resolve) then []
       else [("" ++ "k", (Value.lazy (Value.str "x")).resolve)]) :=
  ⟨rfl, C5_withAttrs_flattening.2.2.2 "" "k" (Value.lazy (Value.str "x")) rfl⟩

/-- C5 counterexample to the claim as stated: a non-group attribute is
*not* stored with its value unchanged — a `LogValuer` (lazy) value is
resolved before storing. -/
theorem C5_counterexample :
    (Handler.withAttrs {} [("k", Value.lazy (Value.str "x"))]).attrs =
      [("k", Value.str "x")] ∧
    [(("k", Value.str "x") : Attr)] ≠ [(("k", Value.lazy (Value.str "x")) : Attr)] := by
  refine ⟨rfl, ?_⟩
  intro hh
  simp at hh

/-! ## C6 — float formatting branch -/

/-- C6 (code bug): the source computes `abs := math.Abs(v)` but then tests
`1e-6 <= v && v < 1e21` on `v` itself, so a **negative** float whose
magnitude lies in `[1e-6, 1e21)` — e.g. `-1e-5` — is rendered in
scientific notation, while the claim (and the intent of the computed `abs`)
says fixed-point.  The claim's positive instances hold: `0.000001` renders
fixed-point and `1e25` renders scientific. -/
theorem C6_float_branch_bug :
    ((mkRat 1 1000000 : ℚ) ≤ ratAbs (mkRat (-1) 100000) ∧
      ratAbs (mkRat (-1) 100000) < (10 : ℚ) ^ 21) ∧
    floatFixedPoint (mkRat (-1) 100000) = false ∧
    formatValue (Value.float (mkRat (-1) 100000)) = formatFloatG (mkRat (-1) 100000) ∧
    formatFloatG (mkRat (-1) 100000) = "-1e-05" ∧
    floatFixedPoint (mkRat 1 1000000) = true ∧
    formatFloatF (mkRat 1 1000000) = "0.000001" ∧
    floatFixedPoint ((10 : ℚ) ^ 25) = false ∧
    formatFloatG ((10 : ℚ) ^ 25) = "1e+25" :=
  ⟨⟨by decide, by decide⟩, by decide, rfl, rfl, by decide, rfl, by decide, rfl⟩

/-! ## C7 — line composition -/

/-- C7 (amended): every emitted line is the level label, `' | '`, the
timestamp field right-aligned to 15 characters (empty for a zero
timestamp), the optional source segment (`' | '` plus `file:line` padded to
20, only when source tracking is on and a pc is recorded), `' | '`, the
message padded to 40 characters, **a single space**, the attribute text,
and a newline. -/
theorem C7_line_composition (h : Handler) (r : Record) :
    h.renderLine r = h.lineSpec r := by
  unfold Handler.renderLine Handler.lineSpec Handler.sourceField Handler.msgField timeField
  by_cases hc : (h.source && r.pc != 0) = true
  · simp only [hc, if_true, String.append_assoc]
  · simp only [Bool.not_eq_true] at hc
    simp only [hc, Bool.false_eq_true, if_false, String.append_empty, String.append_assoc]

/-- C7 counterexample to the claim as stated: the claim's composition omits
the space the format string `"%s | %15s | %-40s %s\n"` places between the
padded message field and the attribute text. -/
theorem C7_counterexample :
    exC7Handler.renderLine exC7Rec =
      levelKind true LevelInfo ++ " | " ++ padLeft 15 "" ++ " | " ++
        padRight 40 "m" ++ " " ++ " a=1" ++ "\n" ∧
    exC7Handler.renderLine exC7Rec ≠
      levelKind true LevelInfo ++ " | " ++ padLeft 15 "" ++ " | " ++
        padRight 40 "m" ++ " a=1" ++ "\n" :=
  ⟨by decide, by decide⟩

/-! ## C8 — the level label -/

/-- C8: the four recognized levels map to fixed 5-character lowercase
labels; unrecognized levels render as the 2-digit zero-padded numeric code;
with color enabled the (padded) label is wrapped red for ≥ Error, yellow
for ≥ Warn, green for ≥ Info, with the reset immediately after the label,
and no color below Info. -/
theorem C8_level_label :
    (∀ lvl : Int, levelKind true lvl = padRight 5 (levelKindBase lvl)) ∧
    levelKind true LevelError = "error" ∧
    levelKind true LevelWarn = "warn " ∧
    levelKind true LevelInfo = "info " ∧
    levelKind true LevelDebug = "debug" ∧
    (∀ lvl : Int, lvl ≠ LevelError → lvl ≠ LevelWarn → lvl ≠ LevelInfo →
      lvl ≠ LevelDebug → levelKindBase lvl = go02d lvl) ∧
    (∀ lvl : Int, LevelError ≤ lvl →
      levelKind false lvl = colorRed ++ padRight 5 (levelKindBase lvl) ++ colorReset) ∧
    (∀ lvl : Int, LevelWarn ≤ lvl → lvl < LevelError →
      levelKind false lvl = colorYellow ++ padRight 5 (levelKindBase lvl) ++ colorReset) ∧
    (∀ lvl : Int, LevelInfo ≤ lvl → lvl < LevelWarn →
      levelKind false lvl = colorGreen ++ padRight 5 (levelKindBase lvl) ++ colorReset) ∧
    (∀ lvl : Int, lvl < LevelInfo → levelKind false lvl = levelKindBase lvl) := by
  refine ⟨fun lvl => rfl, by decide, by decide, by decide, by decide,
    ?_, ?_, ?_, ?_, ?_⟩
  · intro lvl h8 h4 h0 hm4
    unfold levelKindBase
    simp [h8, h4, h0, hm4]
  · intro lvl h8
    unfold levelKind
    simp [h8]
  · intro lvl h4 h8
    simp only [LevelWarn] at h4
    simp only [LevelError] at h8
    have hn8 : ¬(LevelError ≤ lvl) := by simp only [LevelError]; omega
    have h4' : LevelWarn ≤ lvl := by simp only [LevelWarn]; omega
    unfold levelKind
    simp [hn8, h4']
  · intro lvl h0 h4
    simp only [LevelInfo] at h0
    simp only [LevelWarn] at h4
    have hn8 : ¬(LevelError ≤ lvl) := by simp only [LevelError]; omega
    have hn4 : ¬(LevelWarn ≤ lvl) := by simp only [LevelWarn]; omega
    have h0' : LevelInfo ≤ lvl := by simp only [LevelInfo]; omega
    unfold levelKind
    simp [hn8, hn4, h0']
  · intro lvl hneg
    simp only [LevelInfo] at hneg
    have hn8 : ¬(LevelError ≤ lvl) := by simp only [LevelError]; omega
    have hn4 : ¬(LevelWarn ≤ lvl) := by simp only [LevelWarn]; omega
    have hn0 : ¬(LevelInfo ≤ lvl) := by simp only [LevelInfo]; omega
    unfold levelKind
    simp [hn8, hn4, hn0]

/-- Witness for C8 at concrete levels: an unrecognized level ≥ Error is
wrapped red around its padded 2-digit code. -/
theorem C8_level_label_witness :
    levelKind false 9 = colorRed ++ padRight 5 (levelKindBase 9) ++ colorReset ∧
    levelKindBase 9 = go02d 9 := by
  obtain ⟨-, -, -, -, -, hbase, hred, -, -, -⟩ := C8_level_label
  exact ⟨hred 9 (by decide), hbase 9 (by decide) (by decide) (by decide) (by decide)⟩

/-! ## C9 — configuration derivation frame -/

/-- C9: every derivation operation yields a snapshot equal to the receiver
except for the single designated field (`withGroup ""` changes nothing);
the receiver itself — in particular its override table, attribute list and
group stack — is a pure value and is never modified. -/
theorem C9_with_ops_frame (h : Handler) (lvl : Int) (name : String) (w : Nat)
    (a : Attr) (alvl : Int) (attrs : List Attr) (g : String) :
    ((h.withLevel lvl).minLevel = lvl ∧ (h.withLevel lvl).nocolor = h.nocolor ∧
      (h.withLevel lvl).source = h.source ∧ (h.withLevel lvl).groups = h.groups ∧
      (h.withLevel lvl).attrs = h.attrs ∧ (h.withLevel lvl).writer = h.writer ∧
      (h.withLevel lvl).prefixName = h.prefixName ∧
      (h.withLevel lvl).attrLevels = h.attrLevels) ∧
    ((h.withoutColor).nocolor = true ∧ (h.withoutColor).minLevel = h.minLevel ∧
      (h.withoutColor).source = h.source ∧ (h.withoutColor).groups = h.groups ∧
      (h.withoutColor).attrs = h.attrs ∧ (h.withoutColor).writer = h.writer ∧
      (h.withoutColor).prefixName = h.prefixName ∧
      (h.withoutColor).attrLevels = h.attrLevels) ∧
    ((h.withPrefixName name).prefixName = some name ∧
      (h.withPrefixName name).minLevel = h.minLevel ∧
      (h.withPrefixName name).nocolor = h.nocolor ∧
      (h.withPrefixName name).source = h.source ∧
      (h.withPrefixName name).groups = h.groups ∧
      (h.withPrefixName name).attrs = h.attrs ∧
      (h.withPrefixName name).writer = h.writer ∧
      (h.withPrefixName name).attrLevels = h.attrLevels) ∧
    ((h.withWriter w).writer = some w ∧ (h.withWriter w).minLevel = h.minLevel ∧
      (h.withWriter w).nocolor = h.nocolor ∧ (h.withWriter w).source = h.source ∧
      (h.withWriter w).groups = h.groups ∧ (h.withWriter w).attrs = h.attrs ∧
      (h.withWriter w).prefixName = h.prefixName ∧
      (h.withWriter w).attrLevels = h.attrLevels) ∧
    ((h.withSource).source = true ∧ (h.withSource).minLevel = h.minLevel ∧
      (h.withSource).nocolor = h.nocolor ∧ (h.withSource).groups = h.groups ∧
      (h.withSource).attrs = h.attrs ∧ (h.withSource).writer = h.writer ∧
      (h.withSource).prefixName = h.prefixName ∧
      (h.withSource).attrLevels = h.attrLevels) ∧
    ((h.withAttrLevel a alvl).attrLevels = mapAppend h.attrLevels a.1 (a.2, alvl) ∧
      (h.withAttrLevel a alvl).minLevel = h.minLevel ∧
      (h.withAttrLevel a alvl).nocolor = h.nocolor ∧
      (h.withAttrLevel a alvl).source = h.source ∧
      (h.withAttrLevel a alvl).groups = h.groups ∧
      (h.withAttrLevel a alvl).attrs = h.attrs ∧
      (h.withAttrLevel a alvl).writer = h.writer ∧
      (h.withAttrLevel a alvl).prefixName = h.prefixName) ∧
    ((h.withAttrs attrs).attrs = h.attrs ++ attrs.flatMap (flattenAttr h.groupPre) ∧
      (h.withAttrs attrs).minLevel = h.minLevel ∧
      (h.withAttrs attrs).nocolor = h.nocolor ∧
      (h.withAttrs attrs).source = h.source ∧
      (h.withAttrs attrs).groups = h.groups ∧
      (h.withAttrs attrs).writer = h.writer ∧
      (h.withAttrs attrs).prefixName = h.prefixName ∧
      (h.withAttrs attrs).attrLevels = h.attrLevels) ∧
    ((h.withGroup g).groups = (if g = "" then h.groups else h.groups ++ [g]) ∧
      (h.withGroup g).minLevel = h.minLevel ∧
      (h.withGroup g).nocolor = h.nocolor ∧
      (h.withGroup g).source = h.source ∧
      (h.withGroup g).attrs = h.attrs ∧
      (h.withGroup g).writer = h.writer ∧
      (h.withGroup g).prefixName = h.prefixName ∧
      (h.withGroup g).attrLevels = h.attrLevels) := by
  unfold Handler.withLevel Handler.withoutColor Handler.withPrefixName
    Handler.withWriter Handler.withSource Handler.withAttrLevel
    Handler.withAttrs Handler.withGroup
  by_cases hg : g = "" <;> simp [hg]

/-! ## C10 — the override scan uses raw record keys -/

/-- C10 (code bug): what the scan *does* test, it tests by the original
unflattened key and value — the group prefix is not applied, group-valued
record attributes are not recursed into (general conjunct, plus: a
`req.id` override matches a carried attribute stored flattened; it never
matches a record attribute nested inside a `req` group; a bare-key `id`
override matches a record attribute while the group `req` is active).
But the scan does not reach past the first record attribute: the `r.Attrs`
callback returns `enabled` and `Record.Attrs` stops on `false`, so a
below-minimum record whose raw-key-matching attribute `k="v"` comes second
is suppressed, although its key and value match a registered override
exactly as the claim describes. -/
theorem C10_override_scan_uses_raw_keys :
    (∀ (h : Handler) (r : Record),
      h.enabledForRecord r =
        (decide (h.minLevel ≤ r.level) || h.attrs.any (overrideMatches h r.level) ||
          firstAttrMatches h r.level r.attrs)) ∧
    exOvCarried.enabledForRecord exRecDebug = true ∧
    exOvReqId.enabledForRecord exRecNested = false ∧
    exOvBare.enabledForRecord exRecBare = true ∧
    overrideMatches exOvK exRecTwoAttrs.level ("k", Value.str "v") = true ∧
    exRecTwoAttrs.attrs.any (overrideMatches exOvK exRecTwoAttrs.level) = true ∧
    exOvK.enabledForRecord exRecTwoAttrs = false :=
  ⟨fun h r => enabledForRecord_eq h r, by decide, by decide, by decide,
    rfl, rfl, by decide⟩

end Hlog
